import Mathlib

/-!
Shallow embedding of the `mule` binary inspector: the modal input state
machine and command dispatch (`src/main.rs`), the width-adaptive hex layout
(`src/hex.rs`), and the per-format focus cycles and viewer-state
construction (`src/view_gb.rs`, `src/view_macho.rs`).

Rust strings are modelled at the character level (`List Char`); `usize`
values are `Nat` (their saturating operations are explicit); `u16`
arithmetic wraps modulo `2 ^ 16` where the source can overflow.
-/

/-- `InputMode` from `src/main.rs`: `Normal` (the spec calls this
Interactive mode) and `Editing` (the spec's Command mode, in which the
command line is edited and dispatched). -/
inductive InputMode where
  | Normal
  | Editing
deriving DecidableEq

/-- `ProjectState` from `src/main.rs`; `PathBuf` is modelled as `String`. -/
structure ProjectState where
  binary_path : Option String
deriving DecidableEq

/-- The `Mule` application state from `src/main.rs`. The command line
`input : String` is modelled as its character sequence (`character_index`
is a character index, and every edit in the source operates on character
positions, via `byte_index` for insertion). -/
structure Mule where
  project_state : ProjectState
  input : List Char
  input_mode : InputMode
  character_index : Nat
  exit : Bool
deriving DecidableEq

/-- `Mule::new`. -/
def Mule.new : Mule :=
  { project_state := { binary_path := none }
    input := []
    input_mode := InputMode.Normal
    character_index := 0
    exit := false }

/-- `Mule::clamp_cursor`: `new_cursor_pos.clamp(0, self.input.chars().count())`;
the lower bound is vacuous on `Nat`. -/
def Mule.clamp_cursor (m : Mule) (new_cursor_pos : Nat) : Nat :=
  min new_cursor_pos m.input.length

/-- `Mule::move_cursor_left` (`saturating_sub 1`, then clamp). -/
def Mule.move_cursor_left (m : Mule) : Mule :=
  { m with character_index := m.clamp_cursor (m.character_index - 1) }

/-- `Mule::move_cursor_right` (`saturating_add 1`, then clamp). -/
def Mule.move_cursor_right (m : Mule) : Mule :=
  { m with character_index := m.clamp_cursor (m.character_index + 1) }

/-- `Mule::delete_char`: when the cursor is not leftmost, drop the character
left of the cursor (`chars().take(i-1)` chained with `chars().skip(i)`) and
move the cursor left (the clamp in `move_cursor_left` sees the new input). -/
def Mule.delete_char (m : Mule) : Mule :=
  if m.character_index ≠ 0 then
    let current_index := m.character_index
    let from_left_to_current_index := current_index - 1
    ({ m with
        input := m.input.take from_left_to_current_index ++
          m.input.drop current_index } : Mule).move_cursor_left
  else m

/-- `Mule::byte_index` maps `character_index` to the byte index of that
character, or `input.len()` past the end; at the character level this is the
insertion slot `min character_index (input length)`. -/
def Mule.byte_index (m : Mule) : Nat :=
  min m.character_index m.input.length

/-- `Mule::enter_char`: insert at `byte_index` (character slot), then move
the cursor right (clamped against the grown input). -/
def Mule.enter_char (m : Mule) (new_char : Char) : Mule :=
  let index := m.byte_index
  ({ m with
      input := m.input.take index ++ new_char :: m.input.drop index } : Mule).move_cursor_right

/-- `Mule::exec_command`: returns `true` (terminate) immediately when the
buffer reads `":q"`, leaving the state untouched; any other buffer content
is dropped unparsed (the source's `// TODO parse input here`), the buffer is
cleared and the cursor reset to 0, and `false` is returned. -/
def Mule.exec_command (m : Mule) : Bool × Mule :=
  if m.input = [':', 'q'] then
    (true, m)
  else
    (false, { m with input := [], character_index := 0 })

/-- The crossterm `KeyCode` variants the source distinguishes; every variant
the source ignores is collapsed into `Other`. -/
inductive KeyCode where
  | Char (c : Char)
  | Enter
  | Backspace
  | Left
  | Right
  | Esc
  | Other
deriving DecidableEq

/-- The crossterm `KeyEventKind`. -/
inductive KeyEventKind where
  | Press
  | Release
  | Repeat
deriving DecidableEq

/-- A crossterm key event (code and kind; the other fields are unused). -/
structure KeyEvent where
  code : KeyCode
  kind : KeyEventKind
deriving DecidableEq

/-- `Mule::handle_events`, restricted to a single `Event::Key` (all other
events fall through the `if let` and change nothing). Returns the pair
(quit signal, next state). In `Normal` mode only `':'` does anything
(insert it and switch to `Editing`); in `Editing` mode keys are handled
only when `kind == Press`, and Enter returns whatever `exec_command`
signals — the input mode is left untouched. -/
def Mule.handle_key_event (m : Mule) (key : KeyEvent) : Bool × Mule :=
  match m.input_mode with
  | InputMode.Normal =>
    match key.code with
    | KeyCode.Char c =>
      if c = ':' then
        (false, { m.enter_char ':' with input_mode := InputMode.Editing })
      else
        (false, m)
    | _ => (false, m)
  | InputMode.Editing =>
    if key.kind = KeyEventKind.Press then
      match key.code with
      | KeyCode.Enter => m.exec_command
      | KeyCode.Char to_insert => (false, m.enter_char to_insert)
      | KeyCode.Backspace => (false, m.delete_char)
      | KeyCode.Left => (false, m.move_cursor_left)
      | KeyCode.Right => (false, m.move_cursor_right)
      | KeyCode.Esc => (false, { m with input_mode := InputMode.Normal })
      | _ => (false, m)
    else
      (false, m)

/-- The `Mule::run` read–handle loop over a queue of key events: it stops
(returning `true`) as soon as `handle_events` signals quit. -/
def Mule.handle_key_events (m : Mule) : List KeyEvent → Bool × Mule
  | [] => (false, m)
  | e :: rest =>
    let r := m.handle_key_event e
    if r.1 then (true, r.2) else r.2.handle_key_events rest

/-- `line_info_width` from `hex_data_string`: 3 columns of offset label plus
a 3-column gap. -/
def line_info_width : Nat := 3 + 3

/-- The `byte_blocks_per_line` computation `(width - line_info_width) / 9`
from `hex_data_string`, with `width : u16`. The subtraction is unguarded
u16 arithmetic: in a release build a `width` below 6 wraps modulo `2 ^ 16`
(a debug build aborts instead); the wrap is made explicit here. -/
def byte_blocks_per_line (width : Nat) : Nat :=
  ((width + 2 ^ 16 - line_info_width) % 2 ^ 16) / 9

/-- What the spec demands of the blocks-per-line computation for narrow
widths. Modelled from the spec: "implementations must clamp (treat any
width below the minimum usable value as zero blocks per line ...) rather
than wrap/panic" — a truncating (clamped-at-zero) subtraction. -/
def byte_blocks_per_line_clamped (width : Nat) : Nat :=
  (width - line_info_width) / 9

/-- `format_block` from `src/hex.rs`, at the byte level: the loop visits
`i in 0..4`, stops at the end of the buffer, and renders `data[offset + i]`
as two uppercase hex digits. The block is modelled as the list of bytes it
renders (the claims ignore the two-hex-digit textual encoding). -/
def format_block (data : List Nat) (offset : Nat) : List Nat :=
  (List.range 4).filterMap (fun i => data[offset + i]?)

/-- One line of `hex_data_string`'s inner `for` loop: `bpl` blocks, the
byte cursor advancing by 4 after each block. -/
def hex_line (data : List Nat) (offset : Nat) : Nat → List (List Nat)
  | 0 => []
  | bpl + 1 => format_block data offset :: hex_line data (offset + 4) bpl

/-- The outer `while offset < data.len()` loop of `hex_data_string`,
fuel-indexed because the source loop need not terminate (each iteration
emits one line of `bpl` blocks and advances the cursor by `4 * bpl`, which
is zero when `bpl = 0`). `none` means the fuel ran out before the loop
exited; the emitted lines are kept as block lists (the offset labels and
separators the claims ignore are not modelled). -/
def hex_lines_fuel (data : List Nat) (bpl : Nat) : Nat → Nat → Option (List (List (List Nat)))
  | 0, _ => none
  | fuel + 1, offset =>
    if offset < data.length then
      match hex_lines_fuel data bpl fuel (offset + 4 * bpl) with
      | none => none
      | some rest => some (hex_line data offset bpl :: rest)
    else
      some []

/-- The hex-rendering loop of `hex_data_string` terminates on `data` at
`width` iff some amount of fuel suffices. -/
def hex_terminates (data : List Nat) (width : Nat) : Prop :=
  ∃ fuel, (hex_lines_fuel data (byte_blocks_per_line width) fuel 0).isSome

/-- The edit operations on the command buffer that `handle_events` routes in
`Editing` mode (character insert, Backspace, cursor left/right). -/
inductive EditOp where
  | insert (c : Char)
  | backspace
  | left
  | right

/-- Apply one `EditOp` through the corresponding `Mule` method. -/
def Mule.apply_edit (m : Mule) : EditOp → Mule
  | EditOp.insert c => m.enter_char c
  | EditOp.backspace => m.delete_char
  | EditOp.left => m.move_cursor_left
  | EditOp.right => m.move_cursor_right

/-- Apply a sequence of edit operations in order. -/
def Mule.apply_edits (m : Mule) (ops : List EditOp) : Mule :=
  ops.foldl Mule.apply_edit m

/-- The slice of ratatui's `ListState` the source uses: `default()` starts
with nothing selected, `select` overwrites the selection. -/
structure ListState where
  selected : Option Nat
deriving DecidableEq

/-- `ListState::default()`. -/
def ListState.default : ListState :=
  { selected := none }

/-- `ListState::select`. -/
def ListState.select (s : ListState) (index : Option Nat) : ListState :=
  { s with selected := index }

/-- The `Focus` enum of `src/view_gb.rs` (sentinel `none` included). -/
inductive GBFocus where
  | none
  | restarts
  | interrupts
  | header
  | banks
deriving DecidableEq, Inhabited, Fintype

/-- `FOCUS_CYCLE_ORDER` of `src/view_gb.rs`. -/
def GB_FOCUS_CYCLE_ORDER : List GBFocus :=
  [GBFocus.restarts, GBFocus.interrupts, GBFocus.header, GBFocus.banks]

/-- The `Focus` enum of `src/view_macho.rs` (sentinel `none` included). -/
inductive MachoFocus where
  | none
  | header
  | loadCommands
deriving DecidableEq, Inhabited, Fintype

/-- `FOCUS_CYCLE_ORDER` of `src/view_macho.rs`. -/
def MACHO_FOCUS_CYCLE_ORDER : List MachoFocus :=
  [MachoFocus.header, MachoFocus.loadCommands]

/-- The body of `move_focus`, duplicated verbatim in `src/view_gb.rs` and
`src/view_macho.rs`, acting on the `focus_on` value it reads and writes: a
linear scan records the (last) index at which the cycle order holds the
current focus (0 when absent, i.e. for the sentinel), `dir` is added as a
signed integer, a negative result wraps by adding the length, a
non-negative one by taking it modulo the length. -/
def move_focus_value {F : Type} [DecidableEq F] [Inhabited F]
    (order : List F) (dir : Int) (focus : F) : F :=
  let ix_focus : Int :=
    (List.range order.length).foldl
      (fun (ix : Int) (i : Nat) => if order[i]! = focus then (i : Int) else ix) 0
  let ix_focus := ix_focus + dir
  let ix : Nat :=
    if ix_focus < 0 then
      ((order.length : Int) + ix_focus).toNat
    else
      ix_focus.toNat % order.length
  order[ix]!

/-- The cached disassembly texts of `src/view_gb.rs` (`GBDisassembles`). -/
structure GBDisassembles where
  entry_point : List String
  interrupt_v_blank : List String
  interrupt_lcd_stat : List String
  interrupt_timer : List String
  interrupt_serial : List String
  interrupt_joypad : List String
  rst_0 : List String
  rst_1 : List String
  rst_2 : List String
  rst_3 : List String
  rst_4 : List String
  rst_5 : List String
  rst_6 : List String
  rst_7 : List String

/-- The parsed Game Boy ROM structure (`mule_gb::GBBinary`), restricted to
the fields `GBInteractiveState::new` reads; byte slices are `List Nat`. -/
structure GBInterrupts where
  v_blank : List Nat
  lcd_stat : List Nat
  timer : List Nat
  serial : List Nat
  joypad : List Nat

/-- `mule_gb` restart-call byte slices. -/
structure GBRestartCalls where
  rst_0 : List Nat
  rst_1 : List Nat
  rst_2 : List Nat
  rst_3 : List Nat
  rst_4 : List Nat
  rst_5 : List Nat
  rst_6 : List Nat
  rst_7 : List Nat

/-- `mule_gb` ROM header, restricted to the entry point bytes. -/
structure GBHeader where
  entry_point : List Nat

/-- `mule_gb::GBBinary`, restricted to what the viewer construction reads. -/
structure GBBinary where
  header : GBHeader
  interrupts : GBInterrupts
  restart_calls : GBRestartCalls

/-- `disassemble` from `src/view_gb.rs`, parameterized by the external
disassembler `psy::dasm::gb::disassemble` (an external collaborator): a
failure becomes a single error line. -/
def disassemble (dasm : List Nat → Except String (List String))
    (data : List Nat) : List String :=
  match dasm data with
  | Except.error err => ["Err disassemble: " ++ err]
  | Except.ok dis => dis

/-- `GBInteractiveState` from `src/view_gb.rs`. -/
structure GBInteractiveState where
  previous_focus : GBFocus
  focus_on : GBFocus
  bank_list_state : ListState
  disassembles : GBDisassembles

/-- `GBInteractiveState::new`: a default `ListState` whose selection is then
set to `Some(0)`, focus on the header, sentinel previous focus, and the
disassemblies computed once from the binary. -/
def GBInteractiveState.new (dasm : List Nat → Except String (List String))
    (binary : GBBinary) : GBInteractiveState :=
  let bank_list_state := ListState.default.select (some 0)
  { bank_list_state
    previous_focus := GBFocus.none
    focus_on := GBFocus.header
    disassembles :=
      { entry_point := disassemble dasm binary.header.entry_point
        interrupt_v_blank := disassemble dasm binary.interrupts.v_blank
        interrupt_lcd_stat := disassemble dasm binary.interrupts.lcd_stat
        interrupt_timer := disassemble dasm binary.interrupts.timer
        interrupt_serial := disassemble dasm binary.interrupts.serial
        interrupt_joypad := disassemble dasm binary.interrupts.joypad
        rst_0 := disassemble dasm binary.restart_calls.rst_0
        rst_1 := disassemble dasm binary.restart_calls.rst_1
        rst_2 := disassemble dasm binary.restart_calls.rst_2
        rst_3 := disassemble dasm binary.restart_calls.rst_3
        rst_4 := disassemble dasm binary.restart_calls.rst_4
        rst_5 := disassemble dasm binary.restart_calls.rst_5
        rst_6 := disassemble dasm binary.restart_calls.rst_6
        rst_7 := disassemble dasm binary.restart_calls.rst_7 } }

/-- `GBInteractiveState::move_focus` (only `focus_on` is read and written). -/
def GBInteractiveState.move_focus (s : GBInteractiveState) (dir : Int) : GBInteractiveState :=
  { s with focus_on := move_focus_value GB_FOCUS_CYCLE_ORDER dir s.focus_on }

/-- `MachoInteractiveState` from `src/view_macho.rs`. -/
structure MachoInteractiveState where
  previous_focus : MachoFocus
  focus_on : MachoFocus
  command_list_state : ListState
deriving DecidableEq

/-- `MachoInteractiveState::new`: a default `ListState` whose selection is
then set to `Some(0)`, focus on the load commands, sentinel previous
focus. -/
def MachoInteractiveState.new : MachoInteractiveState :=
  let command_list_state := ListState.default.select (some 0)
  { command_list_state
    previous_focus := MachoFocus.none
    focus_on := MachoFocus.loadCommands }

/-- `MachoInteractiveState::move_focus` (only `focus_on` is read and
written). -/
def MachoInteractiveState.move_focus (s : MachoInteractiveState) (dir : Int) : MachoInteractiveState :=
  { s with focus_on := move_focus_value MACHO_FOCUS_CYCLE_ORDER dir s.focus_on }

/-- Every edit operation ends by clamping the cursor against the resulting
input (or is a no-op), so the cursor invariant holds after any single edit,
whatever the starting state. -/
lemma apply_edit_cursor_le (m : Mule) (op : EditOp) :
    (m.apply_edit op).character_index ≤ (m.apply_edit op).input.length := by
  cases op with
  | insert c =>
    simp [Mule.apply_edit, Mule.enter_char, Mule.move_cursor_right, Mule.clamp_cursor]
  | backspace =>
    by_cases h : m.character_index = 0
    · simp [Mule.apply_edit, Mule.delete_char, h, Nat.zero_le]
    · simp [Mule.apply_edit, Mule.delete_char, h, Mule.move_cursor_left, Mule.clamp_cursor]
  | left =>
    simp [Mule.apply_edit, Mule.move_cursor_left, Mule.clamp_cursor]
  | right =>
    simp [Mule.apply_edit, Mule.move_cursor_right, Mule.clamp_cursor]

/-- The cursor invariant propagates through any sequence of edits. -/
lemma apply_edits_cursor_le (ops : List EditOp) :
    ∀ m : Mule, m.character_index ≤ m.input.length →
      (m.apply_edits ops).character_index ≤ (m.apply_edits ops).input.length := by
  induction ops with
  | nil => intro m h; simpa [Mule.apply_edits] using h
  | cons op rest ih =>
    intro m _
    simpa [Mule.apply_edits] using ih (m.apply_edit op) (apply_edit_cursor_le m op)

/-- C9: for every sequence of insert/backspace/left/right operations on the
command buffer, starting from the freshly constructed application state, the
cursor stays within `[0, length]`; and Backspace with the cursor at 0
changes neither the buffer nor the cursor. -/
theorem C9_cursor_invariant :
    (∀ ops : List EditOp,
      (Mule.new.apply_edits ops).character_index ≤ (Mule.new.apply_edits ops).input.length) ∧
    (∀ m : Mule, m.character_index = 0 → m.delete_char = m) := by
  constructor
  · intro ops
    exact apply_edits_cursor_le ops Mule.new (by simp [Mule.new])
  · intro m h
    simp [Mule.delete_char, h]

/-- Witness for C9 at concrete inputs: a Backspace at cursor 0 on the buffer
`"ab"` is the identity, and a concrete edit sequence respects the
invariant. -/
theorem C9_cursor_invariant_witness :
    Mule.delete_char { Mule.new with input := ['a', 'b'] } =
      { Mule.new with input := ['a', 'b'] } ∧
    (Mule.new.apply_edits [EditOp.insert 'a', EditOp.left, EditOp.backspace]).character_index ≤
      (Mule.new.apply_edits [EditOp.insert 'a', EditOp.left, EditOp.backspace]).input.length :=
  ⟨C9_cursor_invariant.2 { Mule.new with input := ['a', 'b'] } rfl,
    C9_cursor_invariant.1 [EditOp.insert 'a', EditOp.left, EditOp.backspace]⟩

/-- C1, counterexample: dispatching the quit command `:q` (Enter with the
buffer holding `":q"` and the cursor at 2) leaves the buffer non-empty and
the cursor non-zero — `exec_command` returns before the clearing code. -/
theorem C1_counterexample :
    (Mule.exec_command
      { Mule.new with input := [':', 'q'], character_index := 2 }).2.input ≠ [] ∧
    (Mule.exec_command
      { Mule.new with input := [':', 'q'], character_index := 2 }).2.character_index ≠ 0 := by
  decide

/-- C1 (amended): after every command dispatch of a buffer other than
`":q"`, whether the command is recognized or not, the buffer is empty and
the cursor is 0 (and no termination is signalled); dispatching `":q"`
signals termination and leaves the whole state, buffer and cursor included,
unchanged. -/
theorem C1_dispatch_clears_buffer_except_quit (m : Mule) :
    (m.input ≠ [':', 'q'] →
      (m.exec_command).1 = false ∧ (m.exec_command).2.input = [] ∧
        (m.exec_command).2.character_index = 0) ∧
    (m.input = [':', 'q'] → m.exec_command = (true, m)) := by
  constructor
  · intro h
    simp [Mule.exec_command, h]
  · intro h
    simp [Mule.exec_command, h]

/-- Witness for C1 at concrete inputs: dispatching `":x"` clears the buffer
and resets the cursor; dispatching `":q"` signals termination untouched. -/
theorem C1_dispatch_clears_buffer_except_quit_witness :
    ((Mule.exec_command { Mule.new with input := [':', 'x'], character_index := 2 }).1 = false ∧
      (Mule.exec_command { Mule.new with input := [':', 'x'], character_index := 2 }).2.input = [] ∧
      (Mule.exec_command { Mule.new with input := [':', 'x'], character_index := 2 }).2.character_index = 0) ∧
    Mule.exec_command { Mule.new with input := [':', 'q'], character_index := 2 } =
      (true, { Mule.new with input := [':', 'q'], character_index := 2 }) :=
  ⟨(C1_dispatch_clears_buffer_except_quit _).1 (by decide),
    (C1_dispatch_clears_buffer_except_quit _).2 rfl⟩

/-- C2, counterexample: in `Editing` mode with buffer `"x"`, pressing Enter
dispatches (no termination) but the input mode stays `Editing` — it does
not transition to `Normal` (the spec's Interactive mode). -/
theorem C2_counterexample :
    (Mule.handle_key_event
      { Mule.new with input_mode := InputMode.Editing, input := ['x'], character_index := 1 }
      ⟨KeyCode.Enter, KeyEventKind.Press⟩).1 = false ∧
    (Mule.handle_key_event
      { Mule.new with input_mode := InputMode.Editing, input := ['x'], character_index := 1 }
      ⟨KeyCode.Enter, KeyEventKind.Press⟩).2.input_mode = InputMode.Editing ∧
    InputMode.Editing ≠ InputMode.Normal := by
  decide

/-- C2 (amended): in the text-editing (`Editing`/Command) mode, pressing
Enter triggers command dispatch, and the input mode is left unchanged (it
stays `Editing`) whether or not the dispatched command signals process
termination; a termination signal is returned to the main loop, which
exits. -/
theorem C2_enter_dispatches_mode_unchanged (m : Mule)
    (h : m.input_mode = InputMode.Editing) :
    m.handle_key_event ⟨KeyCode.Enter, KeyEventKind.Press⟩ = m.exec_command ∧
    (m.exec_command).2.input_mode = InputMode.Editing := by
  constructor
  · simp [Mule.handle_key_event, h]
  · unfold Mule.exec_command
    split
    · exact h
    · exact h

/-- Witness for C2 at a concrete `Editing`-mode state. -/
theorem C2_enter_dispatches_mode_unchanged_witness :
    Mule.handle_key_event { Mule.new with input_mode := InputMode.Editing, input := ['x'] }
        ⟨KeyCode.Enter, KeyEventKind.Press⟩ =
      Mule.exec_command { Mule.new with input_mode := InputMode.Editing, input := ['x'] } ∧
    (Mule.exec_command
      { Mule.new with input_mode := InputMode.Editing, input := ['x'] }).2.input_mode =
        InputMode.Editing :=
  C2_enter_dispatches_mode_unchanged _ rfl

/-- Closure and mutual inversion of `move_focus` on the Game Boy cycle
order, for starting values that are members of the cycle order (checked
over the finite `GBFocus` enum). -/
lemma gb_focus_cycle_members :
    ∀ f : GBFocus, f ∈ GB_FOCUS_CYCLE_ORDER →
      move_focus_value GB_FOCUS_CYCLE_ORDER 1 (move_focus_value GB_FOCUS_CYCLE_ORDER 1
        (move_focus_value GB_FOCUS_CYCLE_ORDER 1
          (move_focus_value GB_FOCUS_CYCLE_ORDER 1 f))) = f ∧
      move_focus_value GB_FOCUS_CYCLE_ORDER (-1)
        (move_focus_value GB_FOCUS_CYCLE_ORDER 1 f) = f ∧
      move_focus_value GB_FOCUS_CYCLE_ORDER 1
        (move_focus_value GB_FOCUS_CYCLE_ORDER (-1) f) = f := by
  decide

/-- Closure and mutual inversion of `move_focus` on the Mach-O cycle order,
for starting values that are members of the cycle order. -/
lemma macho_focus_cycle_members :
    ∀ f : MachoFocus, f ∈ MACHO_FOCUS_CYCLE_ORDER →
      move_focus_value MACHO_FOCUS_CYCLE_ORDER 1
        (move_focus_value MACHO_FOCUS_CYCLE_ORDER 1 f) = f ∧
      move_focus_value MACHO_FOCUS_CYCLE_ORDER (-1)
        (move_focus_value MACHO_FOCUS_CYCLE_ORDER 1 f) = f ∧
      move_focus_value MACHO_FOCUS_CYCLE_ORDER 1
        (move_focus_value MACHO_FOCUS_CYCLE_ORDER (-1) f) = f := by
  decide

/-- A minimal concrete Game Boy viewer state used for concrete checks of
the focus cycle (empty disassembly cache, default list state). -/
def gb_probe_state (f : GBFocus) : GBInteractiveState :=
  { previous_focus := GBFocus.none, focus_on := f, bank_list_state := ListState.default,
    disassembles := ⟨[], [], [], [], [], [], [], [], [], [], [], [], [], []⟩ }

/-- `move_focus` only rewrites `focus_on`, through `move_focus_value`. -/
lemma gb_move_focus_focus_on (s : GBInteractiveState) (dir : Int) :
    (s.move_focus dir).focus_on = move_focus_value GB_FOCUS_CYCLE_ORDER dir s.focus_on :=
  rfl

/-- `move_focus` only rewrites `focus_on`, through `move_focus_value`. -/
lemma macho_move_focus_focus_on (s : MachoInteractiveState) (dir : Int) :
    (s.move_focus dir).focus_on = move_focus_value MACHO_FOCUS_CYCLE_ORDER dir s.focus_on :=
  rfl

/-- C3, counterexample: from the sentinel focus `Focus::None` — a
reachable focus value (it is set by `Unfocus`) that is not a member of the
cycle order — four `move_focus(1)` calls on the Game Boy viewer end at
`Restarts`, not back at `None`: the linear scan falls back to position 0,
so the closure property fails for this starting focus value. -/
theorem C3_counterexample :
    (((((gb_probe_state GBFocus.none).move_focus 1).move_focus 1).move_focus
        1).move_focus 1).focus_on = GBFocus.restarts ∧
    GBFocus.restarts ≠ GBFocus.none := by
  constructor
  · rfl
  · decide

/-- C3 (amended): for each of the program's two focus-cycle orders (Game
Boy, length 4; Mach-O, length 2) and any starting focus that is a member
of the cycle order, N consecutive `move_focus(1)` calls (N the cycle
length) return the focus to its starting value, and `move_focus(1)` and
`move_focus(-1)` are mutual inverses; starting from the sentinel
`Focus::None` the scan falls back to position 0 and closure fails. -/
theorem C3_focus_cycle_closure :
    (∀ s : GBInteractiveState, s.focus_on ∈ GB_FOCUS_CYCLE_ORDER →
      ((((s.move_focus 1).move_focus 1).move_focus 1).move_focus 1).focus_on = s.focus_on ∧
      ((s.move_focus 1).move_focus (-1)).focus_on = s.focus_on ∧
      ((s.move_focus (-1)).move_focus 1).focus_on = s.focus_on) ∧
    (∀ s : MachoInteractiveState, s.focus_on ∈ MACHO_FOCUS_CYCLE_ORDER →
      ((s.move_focus 1).move_focus 1).focus_on = s.focus_on ∧
      ((s.move_focus 1).move_focus (-1)).focus_on = s.focus_on ∧
      ((s.move_focus (-1)).move_focus 1).focus_on = s.focus_on) := by
  constructor
  · intro s hs
    simp only [gb_move_focus_focus_on]
    exact gb_focus_cycle_members s.focus_on hs
  · intro s hs
    simp only [macho_move_focus_focus_on]
    exact macho_focus_cycle_members s.focus_on hs

/-- Witness for C3 at concrete viewer states focused on a cycle member
(`Header` for Game Boy, `LoadCommands` for Mach-O). -/
theorem C3_focus_cycle_closure_witness :
    ((((((gb_probe_state GBFocus.header).move_focus 1).move_focus 1).move_focus
          1).move_focus 1).focus_on = (gb_probe_state GBFocus.header).focus_on ∧
      (((gb_probe_state GBFocus.header).move_focus 1).move_focus (-1)).focus_on =
        (gb_probe_state GBFocus.header).focus_on ∧
      (((gb_probe_state GBFocus.header).move_focus (-1)).move_focus 1).focus_on =
        (gb_probe_state GBFocus.header).focus_on) ∧
    (((MachoInteractiveState.new.move_focus 1).move_focus 1).focus_on =
        MachoInteractiveState.new.focus_on ∧
      ((MachoInteractiveState.new.move_focus 1).move_focus (-1)).focus_on =
        MachoInteractiveState.new.focus_on ∧
      ((MachoInteractiveState.new.move_focus (-1)).move_focus 1).focus_on =
        MachoInteractiveState.new.focus_on) :=
  ⟨C3_focus_cycle_closure.1 (gb_probe_state GBFocus.header) (by decide),
    C3_focus_cycle_closure.2 MachoInteractiveState.new (by decide)⟩

/-- C5: at a rendering width below 6 (here 5) the code's blocks-per-line
computation wraps the u16 subtraction (release build; a debug build
panics), yielding 7281 blocks per line instead of the clamped-to-zero
value the spec mandates. -/
theorem C5_narrow_width_wraps :
    byte_blocks_per_line 5 = 7281 ∧
    byte_blocks_per_line_clamped 5 = 0 ∧
    byte_blocks_per_line 5 ≠ byte_blocks_per_line_clamped 5 := by
  decide

/-- C10: a freshly constructed format-viewer state selects list index 0 —
`Some(0)`, never `None` — for any loaded binary and any external
disassembler (Game Boy ROM banks; Mach-O load commands). -/
theorem C10_viewer_initial_selection
    (dasm : List Nat → Except String (List String)) (binary : GBBinary) :
    (GBInteractiveState.new dasm binary).bank_list_state.selected = some 0 ∧
    (GBInteractiveState.new dasm binary).bank_list_state.selected ≠ none ∧
    MachoInteractiveState.new.command_list_state.selected = some 0 ∧
    MachoInteractiveState.new.command_list_state.selected ≠ none := by
  refine ⟨rfl, ?_, rfl, ?_⟩ <;> simp [GBInteractiveState.new, MachoInteractiveState.new,
    ListState.default, ListState.select]

/-- C7: starting a fresh command (empty command buffer) in either input
mode — `Normal` (the spec's Interactive) or `Editing` (the spec's
Command) — typing `:` then `q` and then pressing Enter makes the event
handler signal quit, so the main loop exits. -/
theorem C7_typing_quit_terminates (m : Mule) (h : m.input = []) :
    (m.handle_key_events
      [⟨KeyCode.Char ':', KeyEventKind.Press⟩, ⟨KeyCode.Char 'q', KeyEventKind.Press⟩,
        ⟨KeyCode.Enter, KeyEventKind.Press⟩]).1 = true := by
  obtain ⟨ps, input, mode, idx, ex⟩ := m
  simp only at h
  subst h
  have h1 : min (idx + 1) 1 = 1 := by omega
  cases mode <;>
    simp [Mule.handle_key_events, Mule.handle_key_event, Mule.enter_char, Mule.byte_index,
      Mule.move_cursor_right, Mule.clamp_cursor, Mule.exec_command, h1]

/-- Witness for C7: the quit sequence terminates from the initial state
(`Normal` mode) and from an `Editing`-mode state with an empty buffer. -/
theorem C7_typing_quit_terminates_witness :
    (Mule.new.handle_key_events
      [⟨KeyCode.Char ':', KeyEventKind.Press⟩, ⟨KeyCode.Char 'q', KeyEventKind.Press⟩,
        ⟨KeyCode.Enter, KeyEventKind.Press⟩]).1 = true ∧
    (Mule.handle_key_events { Mule.new with input_mode := InputMode.Editing }
      [⟨KeyCode.Char ':', KeyEventKind.Press⟩, ⟨KeyCode.Char 'q', KeyEventKind.Press⟩,
        ⟨KeyCode.Enter, KeyEventKind.Press⟩]).1 = true :=
  ⟨C7_typing_quit_terminates Mule.new rfl,
    C7_typing_quit_terminates { Mule.new with input_mode := InputMode.Editing } rfl⟩

/-- C8: dispatching the open command for a non-existent file — Enter in the
text-editing mode with the buffer holding `":o nofile.bin"` — does not
signal termination, leaves the loaded binary (`project_state`) unchanged,
stays in the text-editing (Command) mode, and clears the buffer and cursor:
the dispatcher drops everything that is not `":q"` without touching any
other state. -/
theorem C8_open_failure_swallowed (m : Mule)
    (hmode : m.input_mode = InputMode.Editing)
    (hinput : m.input = [':', 'o', ' ', 'n', 'o', 'f', 'i', 'l', 'e', '.', 'b', 'i', 'n']) :
    (m.handle_key_event ⟨KeyCode.Enter, KeyEventKind.Press⟩).1 = false ∧
    (m.handle_key_event ⟨KeyCode.Enter, KeyEventKind.Press⟩).2.project_state =
      m.project_state ∧
    (m.handle_key_event ⟨KeyCode.Enter, KeyEventKind.Press⟩).2.input_mode =
      InputMode.Editing ∧
    (m.handle_key_event ⟨KeyCode.Enter, KeyEventKind.Press⟩).2.input = [] ∧
    (m.handle_key_event ⟨KeyCode.Enter, KeyEventKind.Press⟩).2.character_index = 0 := by
  have hne : m.input ≠ [':', 'q'] := by
    rw [hinput]; decide
  simp [Mule.handle_key_event, hmode, Mule.exec_command, hne]

/-- The concrete state reached after typing `":o nofile.bin"`. -/
def open_probe_state : Mule :=
  { Mule.new with
      input_mode := InputMode.Editing
      input := [':', 'o', ' ', 'n', 'o', 'f', 'i', 'l', 'e', '.', 'b', 'i', 'n']
      character_index := 13 }

/-- Witness for C8 at the concrete state reached after typing
`":o nofile.bin"`. -/
theorem C8_open_failure_swallowed_witness :
    (open_probe_state.handle_key_event ⟨KeyCode.Enter, KeyEventKind.Press⟩).1 = false ∧
    (open_probe_state.handle_key_event ⟨KeyCode.Enter, KeyEventKind.Press⟩).2.project_state =
      open_probe_state.project_state ∧
    (open_probe_state.handle_key_event ⟨KeyCode.Enter, KeyEventKind.Press⟩).2.input_mode =
      InputMode.Editing ∧
    (open_probe_state.handle_key_event ⟨KeyCode.Enter, KeyEventKind.Press⟩).2.input = [] ∧
    (open_probe_state.handle_key_event ⟨KeyCode.Enter, KeyEventKind.Press⟩).2.character_index = 0 :=
  C8_open_failure_swallowed open_probe_state rfl rfl

/-- Collecting the present elements at positions `offset..offset+n` is the
`take`/`drop` slice. -/
lemma range_filterMap_getElem (l : List Nat) (offset : Nat) :
    ∀ n : Nat, (List.range n).filterMap (fun i => l[offset + i]?) = (l.drop offset).take n := by
  intro n
  induction n with
  | zero => simp
  | succ n ih =>
    rw [List.range_succ, List.filterMap_append, ih, List.take_succ, List.getElem?_drop]
    cases h : l[offset + n]? <;> simp [h]

/-- The bytes a block renders are the 4-byte slice at its offset (clipped
at the end of the buffer). -/
lemma format_block_eq (data : List Nat) (offset : Nat) :
    format_block data offset = (data.drop offset).take 4 := by
  unfold format_block
  exact range_filterMap_getElem data offset 4

/-- The bytes a whole line renders are the `4 * bpl`-byte slice at the
line's starting offset (clipped at the end of the buffer). -/
lemma hex_line_flatten (data : List Nat) :
    ∀ (bpl offset : Nat), (hex_line data offset bpl).flatten = (data.drop offset).take (4 * bpl) := by
  intro bpl
  induction bpl with
  | zero => intro offset; simp [hex_line]
  | succ b ih =>
    intro offset
    rw [hex_line, List.flatten_cons, format_block_eq, ih (offset + 4),
      show data.drop (offset + 4) = (data.drop offset).drop 4 from
        (List.drop_drop 4 offset data).symm,
      ← List.take_add]
    congr 1
    omega

/-- Main loop invariant of `hex_data_string` for a positive block count:
with enough fuel the loop from `offset` terminates, the emitted blocks
concatenate to the unprocessed suffix of the buffer, and the number of
emitted lines is the ceiling of remaining-bytes over `4 * bpl`. -/
lemma hex_lines_fuel_spec (data : List Nat) (bpl : Nat) (hb : 1 ≤ bpl) :
    ∀ (fuel offset : Nat), data.length ≤ offset + fuel * (4 * bpl) →
    ∃ lines, hex_lines_fuel data bpl (fuel + 1) offset = some lines ∧
      lines.flatten.flatten = data.drop offset ∧
      lines.length = ((data.length - offset) + (4 * bpl - 1)) / (4 * bpl) := by
  intro fuel
  induction fuel with
  | zero =>
    intro offset h
    refine ⟨[], ?_, ?_, ?_⟩
    · rw [hex_lines_fuel, if_neg (by omega)]
    · simp [List.drop_eq_nil_of_le (by omega : data.length ≤ offset)]
    · have h0 : data.length - offset = 0 := by omega
      rw [h0, Nat.zero_add, Nat.div_eq_of_lt (by omega)]
      rfl
  | succ fuel ih =>
    intro offset h
    by_cases hlt : offset < data.length
    · have hrec : data.length ≤ (offset + 4 * bpl) + fuel * (4 * bpl) := by
        have e : (fuel + 1) * (4 * bpl) = fuel * (4 * bpl) + 4 * bpl := Nat.succ_mul _ _
        omega
      obtain ⟨rest, heq, hflat, hlen⟩ := ih (offset + 4 * bpl) hrec
      refine ⟨hex_line data offset bpl :: rest, ?_, ?_, ?_⟩
      · rw [hex_lines_fuel, if_pos hlt, heq]
      · rw [List.flatten_cons, List.flatten_append, hex_line_flatten data bpl offset, hflat,
          show data.drop (offset + 4 * bpl) = (data.drop offset).drop (4 * bpl) from
            (List.drop_drop _ _ _).symm]
        exact List.take_append_drop _ _
      · simp only [List.length_cons]
        rw [hlen]
        have hBpos : 0 < 4 * bpl := by omega
        have h1 : data.length - (offset + 4 * bpl) = (data.length - offset) - (4 * bpl) := by
          omega
        rw [h1]
        have hm : 1 ≤ data.length - offset := by omega
        have h2 : (data.length - offset) + (4 * bpl - 1) = ((data.length - offset) - 1) + 4 * bpl := by
          omega
        rw [h2, Nat.add_div_right _ hBpos]
        by_cases hc : data.length - offset ≤ 4 * bpl
        · have h3 : (data.length - offset) - (4 * bpl) = 0 := by omega
          rw [h3, Nat.zero_add, Nat.div_eq_of_lt (by omega), Nat.div_eq_of_lt (by omega)]
        · have h4 : ((data.length - offset) - (4 * bpl)) + (4 * bpl - 1) =
              ((data.length - offset) - 1) := by
            omega
          rw [h4]
    · refine ⟨[], ?_, ?_, ?_⟩
      · rw [hex_lines_fuel, if_neg hlt]
      · simp [List.drop_eq_nil_of_le (by omega : data.length ≤ offset)]
      · have h0 : data.length - offset = 0 := by omega
        rw [h0, Nat.zero_add, Nat.div_eq_of_lt (by omega)]
        rfl

/-- For a width in the u16 range and at least 6, the wrap in the code's
blocks-per-line computation is inert and it equals `(width - 6) / 9`. -/
lemma byte_blocks_per_line_eq (width : Nat) (h6 : 6 ≤ width) (hw : width ≤ 65535) :
    byte_blocks_per_line width = (width - 6) / 9 := by
  have h16 : (2 : Nat) ^ 16 = 65536 := by norm_num
  unfold byte_blocks_per_line line_info_width
  rw [h16]
  omega

/-- A width of at least 15 yields at least one block per line. -/
lemma byte_blocks_per_line_pos (width : Nat) (h : 15 ≤ width) (hw : width ≤ 65535) :
    1 ≤ byte_blocks_per_line width := by
  rw [byte_blocks_per_line_eq width (by omega) hw]
  omega

/-- With zero blocks per line the loop never advances its cursor, so it
runs out of any amount of fuel whenever the buffer is non-empty. -/
lemma hex_lines_fuel_bpl_zero (data : List Nat) :
    ∀ (fuel offset : Nat), offset < data.length → hex_lines_fuel data 0 fuel offset = none := by
  intro fuel
  induction fuel with
  | zero => intro offset _; rfl
  | succ fuel ih =>
    intro offset h
    rw [hex_lines_fuel, if_pos h]
    have he : offset + 4 * 0 = offset := by omega
    rw [he, ih offset h]

/-- C4: for every byte buffer and u16 rendering width of at least 15,
`blocks_per_line` is `(width - 6) / 9`, the rendering loop terminates, the
concatenation of all emitted hex byte blocks (offset labels and separators
ignored) is exactly the original buffer, and the number of emitted lines is
`ceil(L / (4 * blocks_per_line))`. -/
theorem C4_hex_reconstruction (data : List Nat) (width : Nat)
    (h15 : 15 ≤ width) (hw : width ≤ 65535) :
    byte_blocks_per_line width = (width - 6) / 9 ∧
    ∃ lines, hex_lines_fuel data (byte_blocks_per_line width) (data.length + 1) 0 = some lines ∧
      lines.flatten.flatten = data ∧
      lines.length = (data.length + (4 * byte_blocks_per_line width - 1)) /
        (4 * byte_blocks_per_line width) := by
  have hb := byte_blocks_per_line_pos width h15 hw
  refine ⟨byte_blocks_per_line_eq width (by omega) hw, ?_⟩
  have hfuel : data.length ≤ 0 + data.length * (4 * byte_blocks_per_line width) := by
    have h4 : 1 ≤ 4 * byte_blocks_per_line width := by omega
    have := Nat.mul_le_mul_left data.length h4
    omega
  obtain ⟨lines, heq, hflat, hlen⟩ :=
    hex_lines_fuel_spec data (byte_blocks_per_line width) hb data.length 0 hfuel
  exact ⟨lines, heq, by simpa using hflat, by simpa using hlen⟩

/-- Witness for C4: at width 80 (8 blocks, 32 bytes per line) a 40-byte
buffer reconstructs exactly, renders as 2 lines, and the per-line byte
counts are 32 and 8, summing to 40. -/
theorem C4_hex_reconstruction_witness :
    (byte_blocks_per_line 80 = (80 - 6) / 9 ∧
      ∃ lines, hex_lines_fuel (List.range 40) (byte_blocks_per_line 80)
          ((List.range 40).length + 1) 0 = some lines ∧
        lines.flatten.flatten = List.range 40 ∧
        lines.length = ((List.range 40).length + (4 * byte_blocks_per_line 80 - 1)) /
          (4 * byte_blocks_per_line 80)) ∧
    byte_blocks_per_line 80 = 8 ∧
    ((hex_lines_fuel (List.range 40) (byte_blocks_per_line 80)
        ((List.range 40).length + 1) 0).getD []).map (fun line => line.flatten.length) =
      [32, 8] :=
  ⟨C4_hex_reconstruction (List.range 40) 80 (by decide) (by decide), by decide, by decide⟩

/-- C6, counterexample: at width 6 (which the claim admits) the code
computes zero blocks per line, so on the non-empty buffer `[0]` the
rendering loop never advances its byte cursor and does not terminate for
any amount of fuel. -/
theorem C6_counterexample : ¬ hex_terminates [0] 6 := by
  rintro ⟨fuel, hsome⟩
  have h0 : byte_blocks_per_line 6 = 0 := by decide
  rw [h0, hex_lines_fuel_bpl_zero [0] fuel 0 (by decide)] at hsome
  simp at hsome

/-- C6 (amended): for every byte buffer and u16 width of at least 15 the
hex rendering loop terminates, emitting exactly
`ceil(L / (4 * blocks_per_line))` lines and 0 lines for an empty buffer;
for widths 6 through 14 the computed blocks-per-line is zero and the loop
never terminates on a non-empty buffer. -/
theorem C6_hex_loop_termination :
    (∀ (data : List Nat) (width : Nat), 15 ≤ width → width ≤ 65535 →
      ∃ lines, hex_lines_fuel data (byte_blocks_per_line width) (data.length + 1) 0 =
          some lines ∧
        lines.length = (data.length + (4 * byte_blocks_per_line width - 1)) /
          (4 * byte_blocks_per_line width) ∧
        (data = [] → lines = [])) ∧
    (∀ (data : List Nat) (width : Nat), 6 ≤ width → width ≤ 14 → data ≠ [] →
      ¬ hex_terminates data width) := by
  constructor
  · intro data width h15 hw
    have hb := byte_blocks_per_line_pos width h15 hw
    have hfuel : data.length ≤ 0 + data.length * (4 * byte_blocks_per_line width) := by
      have h4 : 1 ≤ 4 * byte_blocks_per_line width := by omega
      have := Nat.mul_le_mul_left data.length h4
      omega
    obtain ⟨lines, heq, _, hlen⟩ :=
      hex_lines_fuel_spec data (byte_blocks_per_line width) hb data.length 0 hfuel
    refine ⟨lines, heq, by simpa using hlen, ?_⟩
    intro hdata
    subst hdata
    have hl0 : lines.length = 0 := by
      rw [hlen]
      simp only [List.length_nil, Nat.zero_sub, Nat.zero_add]
      exact Nat.div_eq_of_lt (by omega)
    exact List.length_eq_zero.mp hl0
  · intro data width h6 h14 hne
    rintro ⟨fuel, hsome⟩
    have h0 : byte_blocks_per_line width = 0 := by
      have h16 : (2 : Nat) ^ 16 = 65536 := by norm_num
      unfold byte_blocks_per_line line_info_width
      rw [h16]
      omega
    have hlen : 0 < data.length := by
      cases data with
      | nil => exact absurd rfl hne
      | cons a l => simp
    rw [h0, hex_lines_fuel_bpl_zero data fuel 0 hlen] at hsome
    simp at hsome

/-- Witness for C6: a 5-byte buffer at width 80 terminates in one line, and
at width 7 the loop on the buffer `[0]` never terminates. -/
theorem C6_hex_loop_termination_witness :
    (∃ lines, hex_lines_fuel (List.range 5) (byte_blocks_per_line 80)
        ((List.range 5).length + 1) 0 = some lines ∧
      lines.length = ((List.range 5).length + (4 * byte_blocks_per_line 80 - 1)) /
        (4 * byte_blocks_per_line 80) ∧
      (List.range 5 = [] → lines = [])) ∧
    ¬ hex_terminates [0] 7 :=
  ⟨C6_hex_loop_termination.1 (List.range 5) 80 (by decide) (by decide),
    C6_hex_loop_termination.2 [0] 7 (by decide) (by decide) (by decide)⟩
